import Mathlib

/-! Savings Tracker: the goal projection engine of `src/app.js`.

A shallow embedding of the estimation code of the `SavingsTracker` object:
`calculateEstimatedTime`, `formatTimeEstimate`, `calculateEndDate`,
`calculateRemainingSchedule`, `getCurrentSavings`, `getRemainingAmount`,
`getProgressPercent` and `getDaysRemaining`, together with the state they are
fed from: the calendar read by `getSelectedDays`, and the goal list changed by
`addDeposit` and `deleteDeposit`.

Modelling conventions.

* JavaScript numbers that hold money are rationals (`ℚ`); numbers produced by
  `Math.ceil` / `Math.floor` are integers (`Int`).  `Math.ceil (a / b)` is
  `Int.ceil` of the rational quotient.  IEEE rounding is outside the model.
* `null` / `undefined` is `none`.  A field that a returned object literal does
  not have is `none` in the record that models the object.
* A `Date` is its number of milliseconds since the epoch; `new Date()` and
  `Date.now()` are explicit arguments.
* A division whose divisor may be zero returns a `JsNumber`, which has the
  infinities and `NaN`; the estimators only divide by numbers they have checked.
* A method that changes `this.goals` is a function from state to state; a call
  that throws is an `Except.error`.
* Template strings are built with `toString` and `++`.
-/

namespace SavingsTracker

/-! ## Data model -/

/-- One entry of `goal.deposits`: the object literal built by `addDeposit`. -/
structure Deposit where
  id : Int
  amount : ℚ
  date : Int
deriving DecidableEq, Repr

/-- A savings goal, restricted to the fields the projection engine reads.
`selectedDays` and `deposits` may be missing on a stored goal, hence `Option`. -/
structure Goal where
  id : Int
  targetAmount : ℚ
  selectedDays : Option (List Int)
  deposits : Option (List Deposit)
deriving DecidableEq, Repr

/-- The object returned by `calculateEstimatedTime`.  The daily branch returns an
object literal without a `totalDepositsNeeded` property, so the field is optional. -/
structure TimeEstimate where
  totalDays : Int
  totalWeeks : Int
  totalMonths : Int
  totalYears : Int
  depositsPerWeek : Int
  totalDepositsNeeded : Option Int
  displayText : String
deriving DecidableEq, Repr

/-- The object returned by `calculateRemainingSchedule`. -/
structure Schedule where
  remainingDeposits : Int
  depositsPerWeek : Int
  totalWeeks : Int
  totalDays : Int
  endDate : Int
  displayText : String
deriving DecidableEq, Repr

/-! ## JavaScript helpers -/

/-- The expression `x || 0` on a number: a falsy number (zero) becomes `0`. -/
def orZero (x : ℚ) : ℚ := if x = 0 then 0 else x

/-- The expression `parseFloat(x)` on a value that already is a finite number. -/
def parseFloat (x : ℚ) : ℚ := x

/-- Milliseconds in one calendar day, `1000 * 60 * 60 * 24`. -/
def msPerDay : Int := 1000 * 60 * 60 * 24

/-- The test `!selectedDays || selectedDays.length === 0`. -/
def noDaysSelected (selectedDays : Option (List Int)) : Bool :=
  match selectedDays with
  | none => true
  | some days => days.length == 0

/-- The test `selectedDays && selectedDays.length > 0`. -/
def hasDaysSelected (selectedDays : Option (List Int)) : Bool :=
  match selectedDays with
  | none => false
  | some days => decide (0 < days.length)

/-- The expression `selectedDays.length` once `selectedDays` is known to be an array. -/
def daysLength (selectedDays : Option (List Int)) : Int :=
  match selectedDays with
  | none => 0
  | some days => (days.length : Int)

/-- The template fragment `n word`, with the singular word exactly when `n === 1`. -/
def countWord (n : Int) (singular plural : String) : String :=
  toString n ++ " " ++ (if n = 1 then singular else plural)

/-! ## Duration formatter -/

/-- Source function `formatTimeEstimate(totalDays, totalWeeks = null, depositsPerWeek = null)`;
a missing argument is `none`. -/
def formatTimeEstimate (totalDays : Int) (totalWeeks : Option Int)
    (_depositsPerWeek : Option Int) : String :=
  if totalDays < 7 then
    countWord totalDays "day" "days"
  else if totalDays < 30 then
    -- `totalWeeks || Math.ceil(totalDays / 7)`: `null` and `0` are both falsy
    let weeks : Int :=
      match totalWeeks with
      | some w => if w ≠ 0 then w else ⌈(totalDays : ℚ) / 7⌉
      | none => ⌈(totalDays : ℚ) / 7⌉
    countWord weeks "week" "weeks"
  else if totalDays < 365 then
    let months : Int := ⌈(totalDays : ℚ) / 30⌉
    countWord months "month" "months"
  else
    let years : Int := ⌊(totalDays : ℚ) / 365⌋
    let remainingMonths : Int := ⌈((totalDays.tmod 365 : Int) : ℚ) / 30⌉
    if remainingMonths > 0 then
      countWord years "year" "years" ++ " " ++ countWord remainingMonths "month" "months"
    else
      countWord years "year" "years"

/-! ## Prospective estimate -/

/-- Source function `calculateEstimatedTime(goalAmount, dailyAmount, selectedDays)`. -/
def calculateEstimatedTime (goalAmount dailyAmount : ℚ)
    (selectedDays : Option (List Int)) : Option TimeEstimate :=
  -- `!goalAmount || !dailyAmount || dailyAmount <= 0`
  if goalAmount = 0 ∨ dailyAmount = 0 ∨ dailyAmount ≤ 0 then
    none
  else
    let totalDepositsNeeded : Int := ⌈goalAmount / dailyAmount⌉
    if noDaysSelected selectedDays then
      let totalDays : Int := totalDepositsNeeded
      some
        { totalDays := totalDays
          totalWeeks := ⌈(totalDays : ℚ) / 7⌉
          totalMonths := ⌈(totalDays : ℚ) / 30⌉
          totalYears := ⌈(totalDays : ℚ) / 365⌉
          depositsPerWeek := 7
          totalDepositsNeeded := none
          displayText := formatTimeEstimate totalDays none none }
    else
      let depositsPerWeek : Int := daysLength selectedDays
      let totalWeeks : Int := ⌈(totalDepositsNeeded : ℚ) / (depositsPerWeek : ℚ)⌉
      let totalDays : Int := totalWeeks * 7
      some
        { totalDays := totalDays
          totalWeeks := totalWeeks
          totalMonths := ⌈(totalDays : ℚ) / 30⌉
          totalYears := ⌈(totalDays : ℚ) / 365⌉
          depositsPerWeek := depositsPerWeek
          totalDepositsNeeded := some totalDepositsNeeded
          displayText := formatTimeEstimate totalDays (some totalWeeks) (some depositsPerWeek) }

/-! ## Aggregation -/

/-- Source function `getCurrentSavings(goal)`: `0` without a deposit array, else the left fold
`deposits.reduce((total, deposit) => total + deposit.amount, 0)`. -/
def getCurrentSavings (goal : Goal) : ℚ :=
  match goal.deposits with
  | none => 0
  | some deposits => deposits.foldl (fun total deposit => total + deposit.amount) 0

/-- Source function `getRemainingAmount(goal)`. -/
def getRemainingAmount (goal : Goal) : ℚ :=
  let remaining := goal.targetAmount - getCurrentSavings goal
  if remaining > 0 then remaining else 0

/-! ## Adaptive estimate -/

/-- Source function `calculateEndDate(startDate, totalDepositsNeeded, depositsPerWeek)`.
`setDate(getDate() + totalWeeks * 7)` advances the date by `totalWeeks * 7`
calendar days, taken here as days of `msPerDay` milliseconds. -/
def calculateEndDate (startDate : Int) (totalDepositsNeeded depositsPerWeek : Int) : Int :=
  let totalWeeks : Int := ⌈(totalDepositsNeeded : ℚ) / (depositsPerWeek : ℚ)⌉
  startDate + (totalWeeks * 7) * msPerDay

/-- Source function `calculateRemainingSchedule(goal)` for a goal that is present; `today` is the
value of `new Date()` read at the top of the function. -/
def calculateRemainingSchedule (goal : Goal) (today : Int) : Option Schedule :=
  let remainingAmount := getRemainingAmount goal
  if remainingAmount ≤ 0 then
    some
      { remainingDeposits := 0
        depositsPerWeek :=
          if hasDaysSelected goal.selectedDays then daysLength goal.selectedDays else 7
        totalWeeks := 0
        totalDays := 0
        endDate := today
        displayText := "0 days" }
  else
    -- `Array.isArray(targetGoal.deposits) ? targetGoal.deposits : []`
    let deposits : List Deposit := goal.deposits.getD []
    if deposits.length = 0 then
      none
    else
      let totalDeposited : ℚ :=
        deposits.foldl (fun sum d => sum + orZero (parseFloat d.amount)) 0
      let avgPerDeposit : ℚ := totalDeposited / (deposits.length : ℚ)
      if avgPerDeposit ≤ 0 then
        none
      else
        let remainingDeposits : Int := ⌈remainingAmount / avgPerDeposit⌉
        let depositsPerWeek : Int :=
          if hasDaysSelected goal.selectedDays then daysLength goal.selectedDays else 7
        let totalWeeks : Int := ⌈(remainingDeposits : ℚ) / (depositsPerWeek : ℚ)⌉
        let totalDays : Int := totalWeeks * 7
        let endDate : Int := calculateEndDate today remainingDeposits depositsPerWeek
        some
          { remainingDeposits := remainingDeposits
            depositsPerWeek := depositsPerWeek
            totalWeeks := totalWeeks
            totalDays := totalDays
            endDate := endDate
            displayText :=
              formatTimeEstimate totalDays (some totalWeeks) (some depositsPerWeek) }

/-! ## Reference definitions taken from the specification -/

/-- The cadence rule of the specification (section 4.1): `depositsPerWeek(selectedDays)`
is the size of `selectedDays` if it is non-empty, else `7`. -/
def depositsPerWeekSpec (selectedDays : Option (List Int)) : Int :=
  match selectedDays with
  | none => 7
  | some days => if days = [] then 7 else (days.length : Int)

/-- Ceiling of `a / b` on natural numbers. -/
def ceilDivNat (a b : Nat) : Nat := (a + b - 1) / b

/-- The text `N unit(s)` of the specification: singular iff `N` equals exactly `1`. -/
def unitWord (n : Nat) (unit : String) : String :=
  toString n ++ " " ++ unit ++ (if n = 1 then "" else "s")

/-- The bucketed duration text of the specification (section 4.3), for a day count
given as a natural number and no week count supplied. -/
def formatDurationSpec (totalDays : Nat) : String :=
  if totalDays < 7 then
    unitWord totalDays "day"
  else if totalDays < 30 then
    unitWord (ceilDivNat totalDays 7) "week"
  else if totalDays < 365 then
    unitWord (ceilDivNat totalDays 30) "month"
  else
    let years := totalDays / 365
    let remainingMonths := ceilDivNat (totalDays % 365) 30
    if remainingMonths > 0 then
      unitWord years "year" ++ " " ++ unitWord remainingMonths "month"
    else
      unitWord years "year"

/-! ## Calendar of the goal form -/

/-- One `.calendar-day-btn` element: its `dataset.day` and whether it carries the
class `selected`. -/
structure CalendarButton where
  day : Int
  selected : Bool
deriving DecidableEq, Repr

/-- The buttons created by `initCalendar(selectedDaysArray)`: one for each
`i = 0 .. 6`, selected iff `selectedDaysArray.includes(i)`. -/
def initCalendar (selectedDaysArray : List Int) : List CalendarButton :=
  (List.range 7).map
    (fun i => { day := (i : Int), selected := selectedDaysArray.contains (i : Int) })

/-- The effect of `toggleDay(dayIndex)`: the first button with `data-day = dayIndex`
has its class `selected` toggled; nothing happens if there is none. -/
def toggleDay (dayIndex : Int) : List CalendarButton → List CalendarButton
  | [] => []
  | b :: bs =>
    if b.day = dayIndex then { b with selected := !b.selected } :: bs
    else b :: toggleDay dayIndex bs

/-- Source function `getSelectedDays()`: the `dataset.day` of every selected
button, in document order. -/
def getSelectedDays (buttons : List CalendarButton) : List Int :=
  (buttons.filter (fun btn => btn.selected)).map (fun btn => btn.day)

/-! ## Numbers that may come from a division by zero -/

/-- A JavaScript number as returned by `getProgressPercent`: a finite value,
`Infinity`, `-Infinity` or `NaN`.  Signed zeros are not distinguished. -/
inductive JsNumber where
  | finite (value : ℚ)
  | posInf
  | negInf
  | nan
deriving DecidableEq, Repr

/-- The quotient `a / b` of two finite numbers: `0 / 0` is `NaN`, and a non-zero
number divided by zero is an infinity with the sign of the numerator. -/
def jsDiv (a b : ℚ) : JsNumber :=
  if b = 0 then
    if a = 0 then JsNumber.nan
    else if 0 < a then JsNumber.posInf
    else JsNumber.negInf
  else JsNumber.finite (a / b)

/-- The product `x * k` with a finite, positive `k`. -/
def jsMulPos (x : JsNumber) (k : ℚ) : JsNumber :=
  match x with
  | JsNumber.finite v => JsNumber.finite (v * k)
  | JsNumber.posInf => JsNumber.posInf
  | JsNumber.negInf => JsNumber.negInf
  | JsNumber.nan => JsNumber.nan

/-- The value of `Math.min(x, k)` with a finite `k`; `NaN` propagates. -/
def jsMin (x : JsNumber) (k : ℚ) : JsNumber :=
  match x with
  | JsNumber.finite v => JsNumber.finite (min v k)
  | JsNumber.posInf => JsNumber.finite k
  | JsNumber.negInf => JsNumber.negInf
  | JsNumber.nan => JsNumber.nan

/-! ## Progress and days remaining -/

/-- Source function `getProgressPercent(goal)` for a goal that is present. -/
def getProgressPercent (goal : Goal) : JsNumber :=
  let percent := jsMulPos (jsDiv (getCurrentSavings goal) goal.targetAmount) 100
  jsMin percent 100

/-- The mutable fields of the `SavingsTracker` object. -/
structure App where
  goals : List Goal
  currentGoalId : Option Int
deriving DecidableEq, Repr

/-- Source function `getCurrentGoal()`: `this.goals.find(g => g.id === this.currentGoalId)`. -/
def getCurrentGoal (app : App) : Option Goal :=
  app.goals.find? (fun g => decide (some g.id = app.currentGoalId))

/-- The expression `goal || this.getCurrentGoal()` that opens the methods with an
optional `goal` argument. -/
def targetGoalOf (app : App) (goal : Option Goal) : Option Goal :=
  match goal with
  | some g => some g
  | none => getCurrentGoal app

/-- The method `getProgressPercent(goal = null)` as called: `0` when
`targetGoalOf` finds no goal. -/
def getProgressPercentOrCurrent (app : App) (goal : Option Goal) : JsNumber :=
  match targetGoalOf app goal with
  | none => JsNumber.finite 0
  | some g => getProgressPercent g

/-- An in-place change of the goal object that `getCurrentGoal` returns: the
first goal of the list with the current id is replaced by its image under `f`. -/
def updateCurrentGoal (currentGoalId : Option Int) (f : Goal → Goal) :
    List Goal → List Goal
  | [] => []
  | g :: gs =>
    if some g.id = currentGoalId then f g :: gs
    else g :: updateCurrentGoal currentGoalId f gs

/-- Source function `addDeposit()`.  `amount` is `parseFloat(depositInput.value)`,
`idNow` the value of `Date.now()` and `dateNow` the instant of `new Date()`. -/
def addDeposit (app : App) (amount : ℚ) (idNow dateNow : Int) : App :=
  match getCurrentGoal app with
  | none => app
  | some _ =>
    -- `!amount || amount <= 0`
    if amount = 0 ∨ amount ≤ 0 then app
    else
      let deposit : Deposit := { id := idNow, amount := amount, date := dateNow }
      { app with
        goals :=
          updateCurrentGoal app.currentGoalId
            (fun g => { g with deposits := some (g.deposits.getD [] ++ [deposit]) })
            app.goals }

/-- Source function `deleteDeposit(depositId)`; `confirmed` is the answer to the
`confirm` dialog.  When no deposit has the id, `deposit.amount` is read on
`undefined` and the call throws. -/
def deleteDeposit (app : App) (depositId : Int) (confirmed : Bool) : Except String App :=
  match getCurrentGoal app with
  | none => Except.ok app
  | some goal =>
    match goal.deposits with
    | none => Except.ok app
    | some deposits =>
      match deposits.find? (fun d => decide (d.id = depositId)) with
      | none => Except.error "TypeError"
      | some _ =>
        if confirmed then
          Except.ok
            { app with
              goals :=
                updateCurrentGoal app.currentGoalId
                  (fun g =>
                    { g with
                      deposits := some (deposits.filter (fun d => decide (d.id ≠ depositId))) })
                  app.goals }
        else Except.ok app

/-! ## Arithmetic helpers -/

theorem ceil_intCast_div (a b : Int) (hb : 0 < b) :
    ⌈(a : ℚ) / (b : ℚ)⌉ = -((-a) / b) := by
  obtain ⟨n, rfl⟩ := Int.eq_ofNat_of_zero_le hb.le
  have h := Rat.floor_intCast_div_natCast (-a) n
  rw [← h, ← Int.ceil_neg]
  congr 1
  push_cast
  ring

theorem floor_intCast_div (a b : Int) (hb : 0 < b) :
    ⌊(a : ℚ) / (b : ℚ)⌋ = a / b := by
  obtain ⟨n, rfl⟩ := Int.eq_ofNat_of_zero_le hb.le
  exact Rat.floor_intCast_div_natCast a n

theorem orZero_eq (x : ℚ) : orZero x = x := by
  unfold orZero
  split_ifs with h
  · exact h.symm
  · rfl

theorem foldl_amount_eq (ds : List Deposit) (a : ℚ) :
    ds.foldl (fun total deposit => total + deposit.amount) a
      = a + (ds.map (fun d => d.amount)).sum := by
  induction ds generalizing a with
  | nil => simp
  | cons d ds ih => simp [List.foldl_cons, ih, add_assoc]

theorem foldl_parsed_eq (ds : List Deposit) (a : ℚ) :
    ds.foldl (fun sum d => sum + orZero (parseFloat d.amount)) a
      = ds.foldl (fun total deposit => total + deposit.amount) a := by
  simp [orZero_eq, parseFloat]

/-- C1 (evaluation at an input where the claim fails): for `goalAmount = 100`,
`dailyAmount = 10` and an empty `selectedDays`, `calculateEstimatedTime` returns a
result whose `totalDepositsNeeded` property is absent; the deposit count
`ceil(100 / 10) = 10` is only found in `totalDays`. -/
theorem calculateEstimatedTime_daily_lacks_totalDepositsNeeded :
    calculateEstimatedTime 100 10 (some []) =
      some
        { totalDays := 10, totalWeeks := 2, totalMonths := 1, totalYears := 1
          depositsPerWeek := 7, totalDepositsNeeded := none, displayText := "2 weeks" } := by
  have h : ⌈(100 : ℚ) / 10⌉ = 10 := by norm_num [Int.ceil_eq_iff]
  have e7 : ⌈(10 : ℚ) / 7⌉ = 2 := by norm_num [Int.ceil_eq_iff]
  have e30 : ⌈(10 : ℚ) / 30⌉ = 1 := by norm_num [Int.ceil_eq_iff]
  have e365 : ⌈(10 : ℚ) / 365⌉ = 1 := by norm_num [Int.ceil_eq_iff]
  simp [calculateEstimatedTime, noDaysSelected, h, formatTimeEstimate, countWord, e7, e30, e365]
  decide

/-- C2 (evaluation at an input where the claim fails): for `goalAmount = -5` and
`dailyAmount = 1` the guard of `calculateEstimatedTime` does not fire, and the
result has the negative day count `-5` with display text `-5 days`. -/
theorem calculateEstimatedTime_negative_goal_not_rejected :
    calculateEstimatedTime (-5) 1 (some []) =
      some
        { totalDays := -5, totalWeeks := 0, totalMonths := 0, totalYears := 0
          depositsPerWeek := 7, totalDepositsNeeded := none, displayText := "-5 days" } := by
  have h : ⌈(-5 : ℚ)⌉ = -5 := by norm_num [Int.ceil_eq_iff]
  have e7 : ⌈(-5 : ℚ) / 7⌉ = 0 := by norm_num [Int.ceil_eq_iff]
  have e30 : ⌈(-5 : ℚ) / 30⌉ = 0 := by norm_num [Int.ceil_eq_iff]
  have e365 : ⌈(-5 : ℚ) / 365⌉ = 0 := by norm_num [Int.ceil_eq_iff]
  simp [calculateEstimatedTime, noDaysSelected, h, formatTimeEstimate, countWord, e7, e30, e365]
  decide

/-! ## Adaptive estimate: goal already met, and no deposits -/

/-- C4: for a goal with a positive `targetAmount` and an empty (or missing)
deposit history the adaptive estimate is `none`: no numeric result is produced,
unlike the goal-already-met case, which is `some` zero-length estimate. -/
theorem calculateRemainingSchedule_no_deposits (goal : Goal) (today : Int)
    (ht : 0 < goal.targetAmount) (hd : goal.deposits = some [] ∨ goal.deposits = none) :
    calculateRemainingSchedule goal today = none := by
  have hs : getCurrentSavings goal = 0 := by
    unfold getCurrentSavings
    rcases hd with hd | hd <;> simp [hd]
  have hrem : ¬ getRemainingAmount goal ≤ 0 := by
    unfold getRemainingAmount
    simp [hs, ht]
  have hlen : (goal.deposits.getD []).length = 0 := by
    rcases hd with hd | hd <;> simp [hd]
  unfold calculateRemainingSchedule
  simp only [hrem, if_false, hlen, if_true]

/-- C4, at a concrete goal: target 500, cadence {2}, no deposit yet. -/
theorem calculateRemainingSchedule_no_deposits_witness :
    calculateRemainingSchedule ⟨7, 500, some [2], some []⟩ 42 = none :=
  calculateRemainingSchedule_no_deposits ⟨7, 500, some [2], some []⟩ 42
    (by norm_num) (Or.inl rfl)

/-! ## Adaptive estimate: the general case -/

theorem perWeek_eq_spec (selectedDays : Option (List Int)) :
    (if hasDaysSelected selectedDays then daysLength selectedDays else 7)
      = depositsPerWeekSpec selectedDays := by
  cases selectedDays with
  | none => simp [hasDaysSelected, depositsPerWeekSpec]
  | some days =>
    cases days with
    | nil => simp [hasDaysSelected, depositsPerWeekSpec]
    | cons x xs => simp [hasDaysSelected, daysLength, depositsPerWeekSpec]

theorem depositsPerWeekSpec_pos (selectedDays : Option (List Int)) :
    0 < depositsPerWeekSpec selectedDays := by
  cases selectedDays with
  | none => simp [depositsPerWeekSpec]
  | some days =>
    cases days with
    | nil => simp [depositsPerWeekSpec]
    | cons x xs =>
      simp only [depositsPerWeekSpec, List.length_cons]
      split_ifs <;> omega

theorem getCurrentSavings_eq_sum (goal : Goal) (ds : List Deposit)
    (hds : goal.deposits = some ds) :
    getCurrentSavings goal = (ds.map (fun d => d.amount)).sum := by
  simp [getCurrentSavings, hds, foldl_amount_eq]

/-- The result of `calculateRemainingSchedule` on the path that reaches the final
`return`: a positive remaining amount and a positive average deposit. -/
theorem calculateRemainingSchedule_general (goal : Goal) (today : Int) (ds : List Deposit)
    (hds : goal.deposits = some ds) (hrem : 0 < getRemainingAmount goal)
    (havg : 0 < getCurrentSavings goal / (ds.length : ℚ)) :
    ∃ r, calculateRemainingSchedule goal today = some r ∧
      r.remainingDeposits
        = ⌈getRemainingAmount goal / (getCurrentSavings goal / (ds.length : ℚ))⌉ ∧
      r.depositsPerWeek = depositsPerWeekSpec goal.selectedDays ∧
      r.totalWeeks = ⌈(r.remainingDeposits : ℚ) / (r.depositsPerWeek : ℚ)⌉ ∧
      r.totalDays = r.totalWeeks * 7 ∧
      r.endDate = today + (r.totalWeeks * 7) * msPerDay ∧
      r.displayText
        = formatTimeEstimate r.totalDays (some r.totalWeeks) (some r.depositsPerWeek) := by
  have hlen : ¬ (goal.deposits.getD []).length = 0 := by
    intro h0
    simp only [hds, Option.getD_some] at h0
    simp [h0] at havg
  have htot : (goal.deposits.getD []).foldl (fun sum d => sum + orZero (parseFloat d.amount)) 0
      = getCurrentSavings goal := by
    simp only [hds, Option.getD_some, foldl_parsed_eq, getCurrentSavings]
  have havg2 : ¬ getCurrentSavings goal / ((goal.deposits.getD []).length : ℚ) ≤ 0 := by
    simp only [hds, Option.getD_some]
    exact not_le.mpr havg
  have hrem2 : ¬ getRemainingAmount goal ≤ 0 := not_le.mpr hrem
  unfold calculateRemainingSchedule
  simp only [hrem2, if_false, hlen, htot, havg2, perWeek_eq_spec, calculateEndDate]
  refine ⟨_, rfl, ?_, rfl, rfl, rfl, rfl, rfl⟩
  simp only [hds, Option.getD_some]

theorem countWord_natCast (n : Nat) (u : String) :
    countWord (n : Int) u (u ++ "s") = unitWord n u := by
  have hs : toString ((n : Nat) : Int) = toString n := rfl
  unfold countWord unitWord
  rw [hs]
  by_cases h : n = 1
  · subst h
    simp [String.append_assoc]
  · have h2 : ¬ ((n : Int) = 1) := by omega
    simp [h, h2, String.append_assoc]

theorem ceil_natCast_div_seven (d : Nat) :
    ⌈((d : Int) : ℚ) / 7⌉ = ((ceilDivNat d 7 : Nat) : Int) := by
  have h := ceil_intCast_div (d : Int) 7 (by decide)
  have h7 : ((7 : Int) : ℚ) = 7 := by norm_num
  rw [h7] at h
  rw [h]
  unfold ceilDivNat
  omega

theorem ceil_natCast_div_thirty (d : Nat) :
    ⌈((d : Int) : ℚ) / 30⌉ = ((ceilDivNat d 30 : Nat) : Int) := by
  have h := ceil_intCast_div (d : Int) 30 (by decide)
  have h30 : ((30 : Int) : ℚ) = 30 := by norm_num
  rw [h30] at h
  rw [h]
  unfold ceilDivNat
  omega

theorem floor_natCast_div_year (d : Nat) :
    ⌊((d : Int) : ℚ) / 365⌋ = ((d / 365 : Nat) : Int) := by
  have h := floor_intCast_div (d : Int) 365 (by decide)
  have h365 : ((365 : Int) : ℚ) = 365 := by norm_num
  rw [h365] at h
  rw [h]
  omega

theorem tmod_natCast_year (d : Nat) :
    (d : Int).tmod 365 = ((d % 365 : Nat) : Int) := by
  rw [Int.tmod_eq_emod (by omega) (by decide)]
  omega

theorem formatTimeEstimate_natCast (d : Nat) :
    formatTimeEstimate (d : Int) none none = formatDurationSpec d := by
  unfold formatTimeEstimate formatDurationSpec
  by_cases h7 : d < 7
  · have h7i : (d : Int) < 7 := by omega
    rw [if_pos h7i, if_pos h7]
    exact countWord_natCast d "day"
  · have h7i : ¬ (d : Int) < 7 := by omega
    rw [if_neg h7i, if_neg h7]
    by_cases h30 : d < 30
    · have h30i : (d : Int) < 30 := by omega
      rw [if_pos h30i, if_pos h30]
      simp only [ceil_natCast_div_seven]
      exact countWord_natCast _ "week"
    · have h30i : ¬ (d : Int) < 30 := by omega
      rw [if_neg h30i, if_neg h30]
      by_cases h365 : d < 365
      · have h365i : (d : Int) < 365 := by omega
        rw [if_pos h365i, if_pos h365]
        simp only [ceil_natCast_div_thirty]
        exact countWord_natCast _ "month"
      · have h365i : ¬ (d : Int) < 365 := by omega
        rw [if_neg h365i, if_neg h365]
        simp only [floor_natCast_div_year, tmod_natCast_year, ceil_natCast_div_thirty]
        by_cases hm : ceilDivNat (d % 365) 30 > 0
        · have hmi : ((ceilDivNat (d % 365) 30 : Nat) : Int) > 0 := by omega
          rw [if_pos hmi, if_pos hm]
          have hy := countWord_natCast (d / 365) "year"
          have hmo := countWord_natCast (ceilDivNat (d % 365) 30) "month"
          have e1 : "year" ++ "s" = "years" := by decide
          have e2 : "month" ++ "s" = "months" := by decide
          rw [e1] at hy
          rw [e2] at hmo
          rw [hy, hmo]
        · have hmi : ¬ ((ceilDivNat (d % 365) 30 : Nat) : Int) > 0 := by omega
          rw [if_neg hmi, if_neg hm]
          exact countWord_natCast _ "year"

/-- C6: with no week count supplied, `formatTimeEstimate` on a non-negative
integer day count equals the bucketed text of the specification (days below 7,
weeks below 30, months below 365, else years and months, each unit singular iff
its number is exactly 1); and the six examples of the specification hold. -/
theorem formatTimeEstimate_eq_formatDurationSpec :
    (∀ d : Nat, formatTimeEstimate (d : Int) none none = formatDurationSpec d) ∧
    formatTimeEstimate 6 none none = "6 days" ∧
    formatTimeEstimate 1 none none = "1 day" ∧
    formatTimeEstimate 10 none none = "2 weeks" ∧
    formatTimeEstimate 45 none none = "2 months" ∧
    formatTimeEstimate 400 none none = "1 year 2 months" ∧
    formatTimeEstimate 365 none none = "1 year" := by
  refine ⟨formatTimeEstimate_natCast, ?_, ?_, ?_, ?_, ?_, ?_⟩
  · exact (formatTimeEstimate_natCast 6).trans (by decide)
  · exact (formatTimeEstimate_natCast 1).trans (by decide)
  · exact (formatTimeEstimate_natCast 10).trans (by decide)
  · exact (formatTimeEstimate_natCast 45).trans (by decide)
  · exact (formatTimeEstimate_natCast 400).trans (by decide)
  · exact (formatTimeEstimate_natCast 365).trans (by decide)

/-! ## Duration formatter: a supplied week count -/

/-- C7 (counterexample): a supplied week count of `0` is not reported. With
`totalDays = 10` the text is `2 weeks`, from `ceil(10 / 7)`, and not `0 weeks`. -/
theorem formatTimeEstimate_zero_weeks_not_reported :
    formatTimeEstimate 10 (some 0) (some 3) = "2 weeks" ∧
    formatTimeEstimate 10 (some 0) (some 3) ≠ "0 weeks" := by
  have e7 : ⌈(10 : ℚ) / 7⌉ = 2 := by norm_num [Int.ceil_eq_iff]
  have h : formatTimeEstimate 10 (some 0) (some 3) = "2 weeks" := by
    simp [formatTimeEstimate, countWord, e7]
    decide
  exact ⟨h, by rw [h]; decide⟩

/-- C7 (amended): for `7 ≤ totalDays < 30`, a supplied non-zero week count `w` is
reported as `w week` when `w = 1` and `w weeks` otherwise; a supplied week count
of `0` is treated like a missing one, and a missing one gives the week count
`ceil(totalDays / 7)`. -/
theorem formatTimeEstimate_weeks_bucket (totalDays w : Int) (depositsPerWeek : Option Int)
    (h7 : 7 ≤ totalDays) (h30 : totalDays < 30) :
    (w ≠ 0 → formatTimeEstimate totalDays (some w) depositsPerWeek
        = toString w ++ " " ++ (if w = 1 then "week" else "weeks")) ∧
    formatTimeEstimate totalDays (some 0) depositsPerWeek
      = formatTimeEstimate totalDays none depositsPerWeek ∧
    formatTimeEstimate totalDays none depositsPerWeek
      = toString ⌈(totalDays : ℚ) / 7⌉ ++ " "
          ++ (if ⌈(totalDays : ℚ) / 7⌉ = 1 then "week" else "weeks") := by
  have hlt : ¬ totalDays < 7 := by omega
  refine ⟨?_, ?_, ?_⟩
  · intro hw
    unfold formatTimeEstimate countWord
    simp only [hlt, if_false, h30, if_true, hw, ne_eq, not_false_eq_true]
  · unfold formatTimeEstimate
    simp only [hlt, if_false, h30, if_true, ne_eq, not_true_eq_false]
  · unfold formatTimeEstimate countWord
    simp only [hlt, if_false, h30, if_true]

/-- C7 (amended), at `totalDays = 21`, `totalWeeks = 3`: the text is `3 weeks`. -/
theorem formatTimeEstimate_weeks_bucket_witness :
    formatTimeEstimate 21 (some 3) (some 3) = "3 weeks" :=
  ((formatTimeEstimate_weeks_bucket 21 3 (some 3) (by decide) (by decide)).1
    (by decide)).trans (by decide)

/-! ## Prospective estimate: the two branches -/

theorem guard_passes (goalAmount dailyAmount : ℚ) (hg : goalAmount ≠ 0)
    (hp : 0 < dailyAmount) : ¬ (goalAmount = 0 ∨ dailyAmount = 0 ∨ dailyAmount ≤ 0) := by
  rintro (h | h | h)
  · exact hg h
  · exact (ne_of_gt hp) h
  · exact absurd hp (not_lt.mpr h)

theorem depositsPerWeekSpec_of_noDays (selectedDays : Option (List Int))
    (h : noDaysSelected selectedDays = true) : depositsPerWeekSpec selectedDays = 7 := by
  cases selectedDays with
  | none => rfl
  | some days =>
    cases days with
    | nil => rfl
    | cons x xs => simp [noDaysSelected] at h

theorem daysLength_of_hasDays (selectedDays : Option (List Int))
    (h : noDaysSelected selectedDays = false) :
    daysLength selectedDays = depositsPerWeekSpec selectedDays := by
  cases selectedDays with
  | none => simp [noDaysSelected] at h
  | some days =>
    cases days with
    | nil => simp [noDaysSelected] at h
    | cons x xs => simp [daysLength, depositsPerWeekSpec]

/-- The prospective estimate exists whenever the guard passes, and reports the
cadence rule of the specification as `depositsPerWeek`. -/
theorem calculateEstimatedTime_depositsPerWeek (goalAmount dailyAmount : ℚ)
    (selectedDays : Option (List Int)) (hg : goalAmount ≠ 0) (hp : 0 < dailyAmount) :
    ∃ r, calculateEstimatedTime goalAmount dailyAmount selectedDays = some r ∧
      r.depositsPerWeek = depositsPerWeekSpec selectedDays := by
  have hguard := guard_passes goalAmount dailyAmount hg hp
  by_cases hno : noDaysSelected selectedDays = true
  · unfold calculateEstimatedTime
    simp only [hguard, if_false, hno, if_true]
    exact ⟨_, rfl, (depositsPerWeekSpec_of_noDays selectedDays hno).symm⟩
  · have hno2 : noDaysSelected selectedDays = false := by simpa using hno
    unfold calculateEstimatedTime
    simp only [hguard, if_false, hno2]
    exact ⟨_, rfl, daysLength_of_hasDays selectedDays hno2⟩

/-- The goal-already-met path of `calculateRemainingSchedule`. -/
theorem calculateRemainingSchedule_met_eq (goal : Goal) (today : Int)
    (hrem : getRemainingAmount goal ≤ 0) :
    calculateRemainingSchedule goal today =
      some
        { remainingDeposits := 0
          depositsPerWeek := depositsPerWeekSpec goal.selectedDays
          totalWeeks := 0
          totalDays := 0
          endDate := today
          displayText := "0 days" } := by
  unfold calculateRemainingSchedule
  simp only [hrem, if_true, perWeek_eq_spec]

/-- C11: `depositsPerWeek` follows one rule on all three paths that report it.
The rule is the length of `selectedDays` when that is non-empty and `7` when it
is empty or absent, and is always positive; the prospective estimate, the
adaptive estimate with a positive remaining amount and the adaptive
goal-already-met estimate each exist and report exactly this value. -/
theorem depositsPerWeek_same_on_all_paths (selectedDays : Option (List Int)) :
    0 < depositsPerWeekSpec selectedDays ∧
    (∀ days : List Int, selectedDays = some days → days ≠ [] →
      depositsPerWeekSpec selectedDays = (days.length : Int)) ∧
    (selectedDays = none ∨ selectedDays = some [] → depositsPerWeekSpec selectedDays = 7) ∧
    (∀ goalAmount dailyAmount : ℚ, goalAmount ≠ 0 → 0 < dailyAmount →
      ∃ r, calculateEstimatedTime goalAmount dailyAmount selectedDays = some r ∧
        r.depositsPerWeek = depositsPerWeekSpec selectedDays) ∧
    (∀ (goal : Goal) (today : Int) (ds : List Deposit),
      goal.selectedDays = selectedDays → goal.deposits = some ds →
      0 < getRemainingAmount goal → 0 < getCurrentSavings goal / (ds.length : ℚ) →
      ∃ r, calculateRemainingSchedule goal today = some r ∧
        r.depositsPerWeek = depositsPerWeekSpec selectedDays) ∧
    (∀ (goal : Goal) (today : Int),
      goal.selectedDays = selectedDays → getRemainingAmount goal ≤ 0 →
      ∃ r, calculateRemainingSchedule goal today = some r ∧
        r.depositsPerWeek = depositsPerWeekSpec selectedDays) := by
  refine ⟨depositsPerWeekSpec_pos selectedDays, ?_, ?_, ?_, ?_, ?_⟩
  · intro days hsd hne
    subst hsd
    simp [depositsPerWeekSpec, hne]
  · rintro (h | h) <;> subst h <;> rfl
  · intro goalAmount dailyAmount hg hp
    exact calculateEstimatedTime_depositsPerWeek goalAmount dailyAmount selectedDays hg hp
  · intro goal today ds hsd hds hrem havg
    obtain ⟨r, hr, _, h2, _⟩ := calculateRemainingSchedule_general goal today ds hds hrem havg
    exact ⟨r, hr, by rw [h2, hsd]⟩
  · intro goal today hsd hrem
    refine ⟨_, calculateRemainingSchedule_met_eq goal today hrem, ?_⟩
    simp only [hsd]

/-- C11, at the cadence {1, 3, 5}: the prospective estimate for 1000 by 100, the
adaptive estimate of a goal of 1000 with one deposit of 100, and the adaptive
estimate of a met goal of 100 all report 3 deposits per week. -/
theorem depositsPerWeek_same_on_all_paths_witness :
    (∃ r, calculateEstimatedTime 1000 100 (some [1, 3, 5]) = some r ∧ r.depositsPerWeek = 3) ∧
    (∃ r, calculateRemainingSchedule ⟨1, 1000, some [1, 3, 5], some [⟨1, 100, 0⟩]⟩ 0 = some r ∧
      r.depositsPerWeek = 3) ∧
    (∃ r, calculateRemainingSchedule ⟨1, 100, some [1, 3, 5], some [⟨1, 100, 0⟩]⟩ 0 = some r ∧
      r.depositsPerWeek = 3) := by
  have h := depositsPerWeek_same_on_all_paths (some [1, 3, 5])
  have hw : depositsPerWeekSpec (some [1, 3, 5]) = 3 := by simp [depositsPerWeekSpec]
  rw [hw] at h
  obtain ⟨_, _, _, hp, ha, hm⟩ := h
  refine ⟨hp 1000 100 (by norm_num) (by norm_num), ?_, ?_⟩
  · exact ha ⟨1, 1000, some [1, 3, 5], some [⟨1, 100, 0⟩]⟩ 0 [⟨1, 100, 0⟩] rfl rfl
      (by norm_num [getRemainingAmount, getCurrentSavings]) (by norm_num [getCurrentSavings])
  · exact hm ⟨1, 100, some [1, 3, 5], some [⟨1, 100, 0⟩]⟩ 0 rfl
      (by norm_num [getRemainingAmount, getCurrentSavings])

/-! ## Monotonicity of the prospective estimate -/

theorem ceil_div_mono_int (a b k : Int) (hk : 0 < k) (hab : a ≤ b) :
    ⌈(a : ℚ) / (k : ℚ)⌉ ≤ ⌈(b : ℚ) / (k : ℚ)⌉ := by
  apply Int.ceil_mono
  have hkq : (0 : ℚ) < (k : ℚ) := by exact_mod_cast hk
  have habq : (a : ℚ) ≤ (b : ℚ) := by exact_mod_cast hab
  exact div_le_div_of_nonneg_right habq hkq.le

/-- C16: for a fixed positive `dailyAmount` and fixed `selectedDays`, the
prospective estimate is monotone in `goalAmount`: for `0 < g1 ≤ g2` both estimates
exist, the deposit counts satisfy `ceil(g1 / p) ≤ ceil(g2 / p)` (reported as
`totalDays` in the daily branch and as `totalDepositsNeeded` otherwise), and
`totalWeeks` and `totalDays` do not decrease. -/
theorem calculateEstimatedTime_mono (g1 g2 dailyAmount : ℚ)
    (selectedDays : Option (List Int)) (hg1 : 0 < g1) (hle : g1 ≤ g2)
    (hp : 0 < dailyAmount) :
    ∃ r1 r2, calculateEstimatedTime g1 dailyAmount selectedDays = some r1 ∧
      calculateEstimatedTime g2 dailyAmount selectedDays = some r2 ∧
      ⌈g1 / dailyAmount⌉ ≤ ⌈g2 / dailyAmount⌉ ∧
      (noDaysSelected selectedDays = true →
        r1.totalDays = ⌈g1 / dailyAmount⌉ ∧ r2.totalDays = ⌈g2 / dailyAmount⌉) ∧
      (noDaysSelected selectedDays = false →
        r1.totalDepositsNeeded = some ⌈g1 / dailyAmount⌉ ∧
        r2.totalDepositsNeeded = some ⌈g2 / dailyAmount⌉) ∧
      r1.totalWeeks ≤ r2.totalWeeks ∧ r1.totalDays ≤ r2.totalDays := by
  have hg2 : 0 < g2 := lt_of_lt_of_le hg1 hle
  have hguard1 := guard_passes g1 dailyAmount (ne_of_gt hg1) hp
  have hguard2 := guard_passes g2 dailyAmount (ne_of_gt hg2) hp
  have hceil : ⌈g1 / dailyAmount⌉ ≤ ⌈g2 / dailyAmount⌉ :=
    Int.ceil_mono (div_le_div_of_nonneg_right hle hp.le)
  by_cases hno : noDaysSelected selectedDays = true
  · unfold calculateEstimatedTime
    simp only [hguard1, hguard2, if_false, hno, if_true]
    refine ⟨_, _, rfl, rfl, hceil, fun _ => ⟨rfl, rfl⟩, ?_, ?_, hceil⟩
    · intro h
      exact absurd h (by simp)
    · have h := ceil_div_mono_int _ _ 7 (by decide) hceil
      have h7 : ((7 : Int) : ℚ) = 7 := by norm_num
      rw [h7] at h
      exact h
  · have hno2 : noDaysSelected selectedDays = false := by simpa using hno
    have hlen : 0 < daysLength selectedDays := by
      rw [daysLength_of_hasDays selectedDays hno2]
      exact depositsPerWeekSpec_pos selectedDays
    have hw := ceil_div_mono_int _ _ (daysLength selectedDays) hlen hceil
    unfold calculateEstimatedTime
    simp only [hguard1, hguard2, if_false, hno2]
    refine ⟨_, _, rfl, rfl, hceil, ?_, fun _ => ⟨rfl, rfl⟩, hw, ?_⟩
    · intro h
      exact absurd h (by simp)
    · exact Int.mul_le_mul_of_nonneg_right hw (by decide)

/-- C16, at `g1 = 100`, `g2 = 250`, `dailyAmount = 30`, days {1, 3}. -/
theorem calculateEstimatedTime_mono_witness :
    ∃ r1 r2, calculateEstimatedTime 100 30 (some [1, 3]) = some r1 ∧
      calculateEstimatedTime 250 30 (some [1, 3]) = some r2 ∧
      ⌈(100 : ℚ) / 30⌉ ≤ ⌈(250 : ℚ) / 30⌉ ∧
      (noDaysSelected (some [1, 3]) = true →
        r1.totalDays = ⌈(100 : ℚ) / 30⌉ ∧ r2.totalDays = ⌈(250 : ℚ) / 30⌉) ∧
      (noDaysSelected (some [1, 3]) = false →
        r1.totalDepositsNeeded = some ⌈(100 : ℚ) / 30⌉ ∧
        r2.totalDepositsNeeded = some ⌈(250 : ℚ) / 30⌉) ∧
      r1.totalWeeks ≤ r2.totalWeeks ∧ r1.totalDays ≤ r2.totalDays :=
  calculateEstimatedTime_mono 100 250 30 (some [1, 3]) (by norm_num) (by norm_num)
    (by norm_num)

/-! ## Adaptive estimate: every numeric result -/

/-- On the final return path the counts are at least one. -/
theorem calculateRemainingSchedule_general_pos (goal : Goal) (today : Int)
    (ds : List Deposit) (hds : goal.deposits = some ds)
    (hrem : 0 < getRemainingAmount goal)
    (havg : 0 < getCurrentSavings goal / (ds.length : ℚ)) :
    ∃ r, calculateRemainingSchedule goal today = some r ∧
      1 ≤ r.remainingDeposits ∧ 1 ≤ r.totalWeeks ∧ r.totalDays = r.totalWeeks * 7 ∧
      r.endDate = today + (r.totalWeeks * 7) * msPerDay ∧
      r.depositsPerWeek = depositsPerWeekSpec goal.selectedDays := by
  obtain ⟨r, hr, h1, h2, h3, h4, h5, _⟩ :=
    calculateRemainingSchedule_general goal today ds hds hrem havg
  have hrd : 0 < r.remainingDeposits := by
    rw [h1]
    exact Int.ceil_pos.mpr (div_pos hrem havg)
  have hdpw : 0 < r.depositsPerWeek := by
    rw [h2]
    exact depositsPerWeekSpec_pos _
  have hw : 0 < r.totalWeeks := by
    rw [h3]
    apply Int.ceil_pos.mpr
    have h1q : (0 : ℚ) < (r.remainingDeposits : ℚ) := by exact_mod_cast hrd
    have h2q : (0 : ℚ) < (r.depositsPerWeek : ℚ) := by exact_mod_cast hdpw
    exact div_pos h1q h2q
  exact ⟨r, hr, hrd, hw, h4, h5, h2⟩

/-- Every numeric result of `calculateRemainingSchedule` has a non-negative week
count, `totalDays = totalWeeks * 7`, `endDate` that many days after `today`, and
the cadence rule as `depositsPerWeek`. -/
theorem calculateRemainingSchedule_some (goal : Goal) (today : Int) (r : Schedule)
    (h : calculateRemainingSchedule goal today = some r) :
    0 ≤ r.totalWeeks ∧ r.totalDays = r.totalWeeks * 7 ∧
      r.endDate = today + (r.totalWeeks * 7) * msPerDay ∧
      r.depositsPerWeek = depositsPerWeekSpec goal.selectedDays := by
  by_cases hrem : getRemainingAmount goal ≤ 0
  · rw [calculateRemainingSchedule_met_eq goal today hrem] at h
    injection h with h
    subst h
    simp
  · have hrem2 : 0 < getRemainingAmount goal := not_le.mp hrem
    cases hd : goal.deposits with
    | none =>
      unfold calculateRemainingSchedule at h
      simp [hrem, hd] at h
    | some ds =>
      by_cases havg : 0 < getCurrentSavings goal / (ds.length : ℚ)
      · obtain ⟨r2, hr2, _, hw, hdays, hend, hdpw⟩ :=
          calculateRemainingSchedule_general_pos goal today ds hd hrem2 havg
        rw [hr2] at h
        injection h with h
        subst h
        exact ⟨by omega, hdays, hend, hdpw⟩
      · have hsav : getCurrentSavings goal
            = ds.foldl (fun total deposit => total + deposit.amount) 0 := by
          simp [getCurrentSavings, hd]
        rw [hsav] at havg
        unfold calculateRemainingSchedule at h
        simp only [hrem, if_false, hd, Option.getD_some, foldl_parsed_eq] at h
        by_cases h0 : ds.length = 0
        · rw [if_pos h0] at h
          cases h
        · rw [if_neg h0, if_pos (not_lt.mp havg)] at h
          cases h

/-- C14 (counterexample): for a goal with `targetAmount = 0` the result is not
`0`. With one deposit of 50 it is `100`, the clamp of `Infinity`; with no
deposit it is `NaN`. -/
theorem zero_target_progress_is_not_zero :
    getProgressPercent ⟨1, 0, none, some [⟨1, 50, 0⟩]⟩ = JsNumber.finite 100 ∧
    getProgressPercent ⟨1, 0, none, some [⟨1, 50, 0⟩]⟩ ≠ JsNumber.finite 0 ∧
    getProgressPercent ⟨1, 0, none, some []⟩ = JsNumber.nan ∧
    getProgressPercent ⟨1, 0, none, some []⟩ ≠ JsNumber.finite 0 := by
  have h1 : getProgressPercent ⟨1, 0, none, some [⟨1, 50, 0⟩]⟩ = JsNumber.finite 100 := by
    norm_num [getProgressPercent, getCurrentSavings, jsDiv, jsMulPos, jsMin]
  have h2 : getProgressPercent ⟨1, 0, none, some []⟩ = JsNumber.nan := by
    simp [getProgressPercent, getCurrentSavings, jsDiv, jsMulPos, jsMin]
  refine ⟨h1, ?_, h2, ?_⟩
  · rw [h1]
    intro h
    injection h with h
    norm_num at h
  · rw [h2]
    intro h
    cases h

/-- C14 (amended): `getProgressPercent` has no guard on `targetAmount`. For a goal
with `targetAmount = 0` the division by zero is performed and the result is
never `0`: it is `100` when `currentSavings > 0` and `NaN` when
`currentSavings = 0`. The defined value `0` is returned when no goal is
available, that is no goal argument and no current goal. -/
theorem getProgressPercent_zero_target (goal : Goal) (app : App)
    (ht : goal.targetAmount = 0) (hno : getCurrentGoal app = none) :
    (0 < getCurrentSavings goal → getProgressPercent goal = JsNumber.finite 100) ∧
    (getCurrentSavings goal = 0 → getProgressPercent goal = JsNumber.nan) ∧
    getProgressPercent goal ≠ JsNumber.finite 0 ∧
    getProgressPercentOrCurrent app none = JsNumber.finite 0 ∧
    getProgressPercentOrCurrent app (some goal) = getProgressPercent goal := by
  refine ⟨?_, ?_, ?_, ?_, ?_⟩
  · intro hpos
    unfold getProgressPercent jsDiv
    simp only [ht, if_true, ne_of_gt hpos, if_false, hpos, jsMulPos, jsMin]
  · intro h0
    unfold getProgressPercent jsDiv
    simp only [ht, h0, if_true, jsMulPos, jsMin]
  · unfold getProgressPercent jsDiv
    simp only [ht, if_true]
    split_ifs with h0 hpos
    · simp [jsMulPos, jsMin]
    · simp [jsMulPos, jsMin]
    · simp [jsMulPos, jsMin]
  · simp only [getProgressPercentOrCurrent, targetGoalOf, hno]
  · simp only [getProgressPercentOrCurrent, targetGoalOf]

/-- C14 (amended), at a goal with target 0 and one deposit of 50, and an
application without goals. -/
theorem getProgressPercent_zero_target_witness :
    getProgressPercent ⟨1, 0, none, some [⟨1, 50, 0⟩]⟩ = JsNumber.finite 100 ∧
    getProgressPercentOrCurrent ⟨[], none⟩ none = JsNumber.finite 0 := by
  have h := getProgressPercent_zero_target ⟨1, 0, none, some [⟨1, 50, 0⟩]⟩ ⟨[], none⟩ rfl rfl
  exact ⟨h.1 (by norm_num [getCurrentSavings]), h.2.2.2.1⟩

/-! ## Cadence: what the estimators are given -/

theorem calendarDays_nodup : ([0, 1, 2, 3, 4, 5, 6] : List Int).Nodup := by decide

theorem initCalendar_days (selectedDaysArray : List Int) :
    (initCalendar selectedDaysArray).map (fun btn => btn.day) = [0, 1, 2, 3, 4, 5, 6] := by
  simp [initCalendar, List.range, List.range.loop]

theorem toggleDay_days (dayIndex : Int) (buttons : List CalendarButton) :
    (toggleDay dayIndex buttons).map (fun btn => btn.day)
      = buttons.map (fun btn => btn.day) := by
  induction buttons with
  | nil => rfl
  | cons b bs ih =>
    unfold toggleDay
    split_ifs with h
    · simp
    · simp [ih]

theorem getSelectedDays_sublist (buttons : List CalendarButton) :
    (getSelectedDays buttons).Sublist (buttons.map (fun btn => btn.day)) := by
  unfold getSelectedDays
  exact List.Sublist.map _ (List.filter_sublist buttons)

theorem length_le_seven (days : List Int) (hnd : days.Nodup)
    (hr : ∀ d ∈ days, 0 ≤ d ∧ d ≤ 6) : days.length ≤ 7 := by
  have hsub : days.toFinset ⊆ Finset.Icc (0 : Int) 6 := by
    intro d hd
    rw [List.mem_toFinset] at hd
    exact Finset.mem_Icc.mpr (hr d hd)
  have hcard := Finset.card_le_card hsub
  rw [List.toFinset_card_of_nodup hnd] at hcard
  simpa using hcard

/-- C12 (counterexample): the estimator neither deduplicates nor rejects. The
sequence `[1, 1]` gives 2 deposits per week, the sequence `[9]` is accepted and
gives 1, and a sequence of eight entries gives 8. -/
theorem cadence_not_normalized :
    (∃ r, calculateEstimatedTime 100 10 (some [1, 1]) = some r ∧ r.depositsPerWeek = 2) ∧
    (∃ r, calculateEstimatedTime 100 10 (some [9]) = some r ∧ r.depositsPerWeek = 1) ∧
    (∃ r, calculateEstimatedTime 100 10 (some [0, 1, 2, 3, 4, 5, 6, 0]) = some r ∧
      r.depositsPerWeek = 8) := by
  refine ⟨?_, ?_, ?_⟩
  · obtain ⟨r, hr, h⟩ :=
      calculateEstimatedTime_depositsPerWeek 100 10 (some [1, 1]) (by norm_num) (by norm_num)
    exact ⟨r, hr, by rw [h]; simp [depositsPerWeekSpec]⟩
  · obtain ⟨r, hr, h⟩ :=
      calculateEstimatedTime_depositsPerWeek 100 10 (some [9]) (by norm_num) (by norm_num)
    exact ⟨r, hr, by rw [h]; simp [depositsPerWeekSpec]⟩
  · obtain ⟨r, hr, h⟩ :=
      calculateEstimatedTime_depositsPerWeek 100 10 (some [0, 1, 2, 3, 4, 5, 6, 0])
        (by norm_num) (by norm_num)
    exact ⟨r, hr, by rw [h]; simp [depositsPerWeekSpec]⟩

/-- C12 (amended): the estimators use a non-empty sequence of selected days as
given, without rejection and without deduplication: both the prospective and the
adaptive estimate report its length as `depositsPerWeek`. When the sequence is
what `getSelectedDays` reads from the seven calendar buttons `0 .. 6`, its values
are distinct and within `[0, 6]`, and `depositsPerWeek` does not exceed 7. -/
theorem cadence_used_as_given (days : List Int) (hne : days ≠ []) :
    (∀ goalAmount dailyAmount : ℚ, goalAmount ≠ 0 → 0 < dailyAmount →
      ∃ r, calculateEstimatedTime goalAmount dailyAmount (some days) = some r ∧
        r.depositsPerWeek = (days.length : Int)) ∧
    (∀ (goal : Goal) (today : Int) (r : Schedule), goal.selectedDays = some days →
      calculateRemainingSchedule goal today = some r →
      r.depositsPerWeek = (days.length : Int)) ∧
    (∀ buttons : List CalendarButton,
      buttons.map (fun btn => btn.day) = [0, 1, 2, 3, 4, 5, 6] →
      getSelectedDays buttons = days →
      days.Nodup ∧ (∀ d ∈ days, 0 ≤ d ∧ d ≤ 6) ∧ days.length ≤ 7) := by
  have hspec : depositsPerWeekSpec (some days) = (days.length : Int) := by
    simp [depositsPerWeekSpec, hne]
  refine ⟨?_, ?_, ?_⟩
  · intro goalAmount dailyAmount hg hp
    obtain ⟨r, hr, h⟩ :=
      calculateEstimatedTime_depositsPerWeek goalAmount dailyAmount (some days) hg hp
    exact ⟨r, hr, by rw [h, hspec]⟩
  · intro goal today r hsd hr
    obtain ⟨_, _, _, h⟩ := calculateRemainingSchedule_some goal today r hr
    rw [h, hsd, hspec]
  · intro buttons hb hsel
    have hsub := getSelectedDays_sublist buttons
    rw [hb, hsel] at hsub
    have hnd : days.Nodup := List.Nodup.sublist hsub calendarDays_nodup
    have hr : ∀ d ∈ days, 0 ≤ d ∧ d ≤ 6 := by
      intro d hd
      have hmem := hsub.subset hd
      simp only [List.mem_cons, List.mem_singleton, List.not_mem_nil, or_false] at hmem
      omega
    exact ⟨hnd, hr, length_le_seven days hnd hr⟩

/-- C12 (amended), at the days read from a calendar opened with `[1, 3]` on which
day 5 is then toggled: the sequence is `[1, 3, 5]`, 3 deposits per week. -/
theorem cadence_used_as_given_witness :
    getSelectedDays (toggleDay 5 (initCalendar [1, 3])) = [1, 3, 5] ∧
    (∃ r, calculateEstimatedTime 1000 100 (some [1, 3, 5]) = some r ∧
      r.depositsPerWeek = 3) ∧
    ([1, 3, 5] : List Int).length ≤ 7 := by
  have hsel : getSelectedDays (toggleDay 5 (initCalendar [1, 3])) = [1, 3, 5] := by decide
  have h := cadence_used_as_given [1, 3, 5] (by simp)
  refine ⟨hsel, h.1 1000 100 (by norm_num) (by norm_num), ?_⟩
  exact (h.2.2 (toggleDay 5 (initCalendar [1, 3]))
    (by rw [toggleDay_days, initCalendar_days]) hsel).2.2

/-! ## Deposit operations -/

theorem getCurrentGoal_updateCurrentGoal (app : App) (f : Goal → Goal)
    (hf : ∀ g, (f g).id = g.id) :
    getCurrentGoal { app with goals := updateCurrentGoal app.currentGoalId f app.goals }
      = (getCurrentGoal app).map f := by
  unfold getCurrentGoal
  simp only
  induction app.goals with
  | nil => rfl
  | cons g gs ih =>
    unfold updateCurrentGoal
    by_cases h : some g.id = app.currentGoalId
    · simp [h, hf]
    · simp [h, ih]

theorem updateCurrentGoal_other_goals (c : Option Int) (f : Goal → Goal)
    (hf : ∀ g, (f g).id = g.id) (goals : List Goal) :
    (updateCurrentGoal c f goals).filter (fun g => decide (some g.id ≠ c))
      = goals.filter (fun g => decide (some g.id ≠ c)) := by
  induction goals with
  | nil => rfl
  | cons g gs ih =>
    unfold updateCurrentGoal
    by_cases h : some g.id = c
    · simp [h, hf]
    · simpa [h] using ih

theorem find?_eq_head?_filter (p : Deposit → Bool) (ds : List Deposit) :
    ds.find? p = (ds.filter p).head? := by
  induction ds with
  | nil => rfl
  | cons d ds ih =>
    by_cases h : p d = true
    · rw [List.find?_cons_of_pos _ h, List.filter_cons_of_pos h]
      rfl
    · rw [List.find?_cons_of_neg _ h, List.filter_cons_of_neg h, ih]

theorem sum_amount_filter_split (ds : List Deposit) (k : Int) :
    (ds.map (fun d => d.amount)).sum
      = ((ds.filter (fun d => decide (d.id = k))).map (fun d => d.amount)).sum
        + ((ds.filter (fun d => decide (d.id ≠ k))).map (fun d => d.amount)).sum := by
  induction ds with
  | nil => simp
  | cons d ds ih =>
    by_cases h : d.id = k
    · simp [h, ih, add_assoc]
    · simp [h, ih, add_left_comm]

/-- What a confirmed `deleteDeposit` does when exactly one deposit `d` of the
current goal has the id: the current goal keeps the other deposits in their
order, its savings drop by `d.amount`, and goals with another id are untouched. -/
theorem deleteDeposit_unique_id (app : App) (goal : Goal) (ds : List Deposit)
    (d : Deposit) (depositId : Int) (hg : getCurrentGoal app = some goal)
    (hds : goal.deposits = some ds)
    (hu : ds.filter (fun x => decide (x.id = depositId)) = [d]) :
    ∃ app1 goal1, deleteDeposit app depositId true = Except.ok app1 ∧
      getCurrentGoal app1 = some goal1 ∧
      goal1.deposits = some (ds.filter (fun x => decide (x.id ≠ depositId))) ∧
      goal1.targetAmount = goal.targetAmount ∧
      getCurrentSavings goal1 = getCurrentSavings goal - d.amount ∧
      app1.currentGoalId = app.currentGoalId ∧
      app1.goals.filter (fun g => decide (some g.id ≠ app.currentGoalId))
        = app.goals.filter (fun g => decide (some g.id ≠ app.currentGoalId)) := by
  have hfind : ds.find? (fun x => decide (x.id = depositId)) = some d := by
    rw [find?_eq_head?_filter, hu]
    rfl
  have hdel : deleteDeposit app depositId true
      = Except.ok
          { app with
            goals :=
              updateCurrentGoal app.currentGoalId
                (fun g =>
                  { g with
                    deposits := some (ds.filter (fun x => decide (x.id ≠ depositId))) })
                app.goals } := by
    unfold deleteDeposit
    simp only [hg, hds, hfind, if_true]
  refine ⟨_, { goal with deposits := some (ds.filter (fun x => decide (x.id ≠ depositId))) },
    hdel, ?_, rfl, rfl, ?_, rfl, ?_⟩
  · rw [getCurrentGoal_updateCurrentGoal app
      (fun g => { g with deposits := some (ds.filter (fun x => decide (x.id ≠ depositId))) })
      (fun _ => rfl), hg]
    rfl
  · have hsplit := sum_amount_filter_split ds depositId
    rw [hu] at hsplit
    simp only [List.map_cons, List.map_nil, List.sum_cons, List.sum_nil, add_zero] at hsplit
    rw [getCurrentSavings_eq_sum goal ds hds,
      getCurrentSavings_eq_sum _ (ds.filter (fun x => decide (x.id ≠ depositId))) rfl]
    linarith
  · exact updateCurrentGoal_other_goals app.currentGoalId
      (fun g => { g with deposits := some (ds.filter (fun x => decide (x.id ≠ depositId))) })
      (fun _ => rfl) app.goals

/-- The round trip when exactly one deposit `d` of the current goal has the id and
`d.amount` is positive: after a confirmed `deleteDeposit` and an `addDeposit` of
`d.amount`, the current goal has its former savings and progress. -/
theorem deleteDeposit_addDeposit_unique_id (app : App) (goal : Goal) (ds : List Deposit)
    (d : Deposit) (depositId idNow dateNow : Int) (hg : getCurrentGoal app = some goal)
    (hds : goal.deposits = some ds)
    (hu : ds.filter (fun x => decide (x.id = depositId)) = [d]) (hpos : 0 < d.amount) :
    ∃ app1 goal2, deleteDeposit app depositId true = Except.ok app1 ∧
      getCurrentGoal (addDeposit app1 d.amount idNow dateNow) = some goal2 ∧
      getCurrentSavings goal2 = getCurrentSavings goal ∧
      getProgressPercent goal2 = getProgressPercent goal := by
  obtain ⟨app1, goal1, hdel, hg1, hds1, ht1, hs1, _, _⟩ :=
    deleteDeposit_unique_id app goal ds d depositId hg hds hu
  have hguard : ¬ (d.amount = 0 ∨ d.amount ≤ 0) := by
    rintro (h | h)
    · exact (ne_of_gt hpos) h
    · exact absurd hpos (not_lt.mpr h)
  have hadd : addDeposit app1 d.amount idNow dateNow
      = { app1 with
          goals :=
            updateCurrentGoal app1.currentGoalId
              (fun g =>
                { g with
                  deposits :=
                    some (g.deposits.getD [] ++ [{ id := idNow, amount := d.amount, date := dateNow }]) })
              app1.goals } := by
    unfold addDeposit
    simp only [hg1, hguard, if_false]
  have hg2 := getCurrentGoal_updateCurrentGoal app1
    (fun g =>
      { g with
        deposits :=
          some (g.deposits.getD [] ++ [{ id := idNow, amount := d.amount, date := dateNow }]) })
    (fun _ => rfl)
  rw [hg1] at hg2
  refine ⟨app1, _, hdel, by rw [hadd]; exact hg2, ?_, ?_⟩
  · have hsav : getCurrentSavings
        { goal1 with
          deposits :=
            some (goal1.deposits.getD [] ++ [{ id := idNow, amount := d.amount, date := dateNow }]) }
        = getCurrentSavings goal1 + d.amount := by
      simp [getCurrentSavings, hds1, foldl_amount_eq]
    rw [hsav, hs1]
    ring
  · have hsav : getCurrentSavings
        { goal1 with
          deposits :=
            some (goal1.deposits.getD [] ++ [{ id := idNow, amount := d.amount, date := dateNow }]) }
        = getCurrentSavings goal := by
      have : getCurrentSavings
          { goal1 with
            deposits :=
              some (goal1.deposits.getD [] ++ [{ id := idNow, amount := d.amount, date := dateNow }]) }
          = getCurrentSavings goal1 + d.amount := by
        simp [getCurrentSavings, hds1, foldl_amount_eq]
      rw [this, hs1]
      ring
    unfold getProgressPercent
    rw [hsav]
    simp only [ht1]

/-- C15 (evaluation at an input where the claim fails): two `addDeposit` calls that
read the same `Date.now()` value 1000 give two deposits, of 10 and of 20, with
one id. Deleting the deposit of 10 by its id empties the list, and adding 10
again leaves savings of 10 and a progress of 1, where they were 30 and 3. -/
theorem deleteDeposit_addDeposit_not_restoring :
    addDeposit (addDeposit ⟨[⟨1, 1000, some [1, 3, 5], some []⟩], some 1⟩ 10 1000 1000)
        20 1000 1001
      = ⟨[⟨1, 1000, some [1, 3, 5], some [⟨1000, 10, 1000⟩, ⟨1000, 20, 1001⟩]⟩], some 1⟩ ∧
    deleteDeposit
        ⟨[⟨1, 1000, some [1, 3, 5], some [⟨1000, 10, 1000⟩, ⟨1000, 20, 1001⟩]⟩], some 1⟩
        1000 true
      = Except.ok ⟨[⟨1, 1000, some [1, 3, 5], some []⟩], some 1⟩ ∧
    addDeposit ⟨[⟨1, 1000, some [1, 3, 5], some []⟩], some 1⟩ 10 2000 2000
      = ⟨[⟨1, 1000, some [1, 3, 5], some [⟨2000, 10, 2000⟩]⟩], some 1⟩ ∧
    getCurrentSavings ⟨1, 1000, some [1, 3, 5], some [⟨1000, 10, 1000⟩, ⟨1000, 20, 1001⟩]⟩
      = 30 ∧
    getCurrentSavings ⟨1, 1000, some [1, 3, 5], some [⟨2000, 10, 2000⟩]⟩ = 10 ∧
    getProgressPercent ⟨1, 1000, some [1, 3, 5], some [⟨1000, 10, 1000⟩, ⟨1000, 20, 1001⟩]⟩
      = JsNumber.finite 3 ∧
    getProgressPercent ⟨1, 1000, some [1, 3, 5], some [⟨2000, 10, 2000⟩]⟩
      = JsNumber.finite 1 := by
  refine ⟨?_, ?_, ?_, ?_, ?_, ?_, ?_⟩
  · norm_num [addDeposit, getCurrentGoal, updateCurrentGoal]
  · simp [deleteDeposit, getCurrentGoal, updateCurrentGoal]
  · norm_num [addDeposit, getCurrentGoal, updateCurrentGoal]
  · norm_num [getCurrentSavings]
  · norm_num [getCurrentSavings]
  · norm_num [getProgressPercent, getCurrentSavings, jsDiv, jsMulPos, jsMin]
  · norm_num [getProgressPercent, getCurrentSavings, jsDiv, jsMulPos, jsMin]

/-- C19 (evaluation at an input where the claim fails): two `addDeposit` calls that
read the same `Date.now()` value 1000 give two deposits, of 10 and of 20, with
one id. A confirmed `deleteDeposit(1000)` removes both of them, so the savings
drop from 30 to 0 and not by the amount 10 of the deposit named in the dialog;
the goal that is not current keeps its deposits. -/
theorem deleteDeposit_removes_every_deposit_with_the_id :
    addDeposit
        (addDeposit
          ⟨[⟨1, 1000, some [1, 3, 5], some []⟩, ⟨2, 50, none, some [⟨7, 5, 7⟩]⟩], some 1⟩
          10 1000 1000)
        20 1000 1001
      = ⟨[⟨1, 1000, some [1, 3, 5], some [⟨1000, 10, 1000⟩, ⟨1000, 20, 1001⟩]⟩,
          ⟨2, 50, none, some [⟨7, 5, 7⟩]⟩], some 1⟩ ∧
    deleteDeposit
        ⟨[⟨1, 1000, some [1, 3, 5], some [⟨1000, 10, 1000⟩, ⟨1000, 20, 1001⟩]⟩,
          ⟨2, 50, none, some [⟨7, 5, 7⟩]⟩], some 1⟩
        1000 true
      = Except.ok
          ⟨[⟨1, 1000, some [1, 3, 5], some []⟩, ⟨2, 50, none, some [⟨7, 5, 7⟩]⟩], some 1⟩ ∧
    getCurrentSavings ⟨1, 1000, some [1, 3, 5], some [⟨1000, 10, 1000⟩, ⟨1000, 20, 1001⟩]⟩
      = 30 ∧
    getCurrentSavings ⟨1, 1000, some [1, 3, 5], some []⟩ = 0 := by
  refine ⟨?_, ?_, ?_, ?_⟩
  · norm_num [addDeposit, getCurrentGoal, updateCurrentGoal]
  · simp [deleteDeposit, getCurrentGoal, updateCurrentGoal]
  · norm_num [getCurrentSavings]
  · norm_num [getCurrentSavings]

end SavingsTracker
